import Mathlib

/-!
Shallow embedding of the example Python services in this repository
(src/examples/python/services/auth.py, src/examples/python/services/database.py,
src/examples/python/models/user.py, src/examples/python/comprehensive.py),
with theorems settling the specification claims about them.

Python dictionaries are modelled as association lists where the most recent
assignment is at the head of the list; lookup takes the first match, deletion
removes the key, membership tests lookup success.  Exception raising is
modelled with `Except String`.  Methods that may raise return the resulting
object state alongside the `Except` result, so that "state unchanged on
raise" is statable; the Python methods in question never assign to `self`,
so the embedded methods return the receiver unchanged.
-/

namespace Codanna

/-- Lookup in a Python-dict association list: first (most recent) binding of
the key wins. -/
def dictGet {α : Type} (m : List (String × α)) (k : String) : Option α :=
  match m with
  | [] => none
  | (k2, v) :: rest => if k = k2 then some v else dictGet rest k

/-- Python `m[k] = v`: the new binding shadows any earlier one. -/
def dictSet {α : Type} (m : List (String × α)) (k : String) (v : α) :
    List (String × α) :=
  (k, v) :: m

/-- Python `k in m`. -/
def dictContains {α : Type} (m : List (String × α)) (k : String) : Bool :=
  (dictGet m k).isSome

/-- Python `del m[k]`: every binding of the key is removed. -/
def dictDel {α : Type} (m : List (String × α)) (k : String) :
    List (String × α) :=
  m.filter (fun p => p.1 != k)

/-- Python `UserRole` enum from models/user.py. -/
inductive UserRole : Type
  | admin
  | user
  | guest
deriving DecidableEq, Repr

/-- Python class `User` from models/user.py: `__init__` stores name, email, role and sets
`_id` to None. -/
structure User : Type where
  name : String
  email : String
  role : UserRole
  _id : Option Int
deriving DecidableEq, Repr

/-- State of `DatabaseConnection` per its `__init__` in services/database.py. -/
structure DatabaseConnection : Type where
  connection_url : String
  _connected : Bool
  _data : List (String × String)
deriving DecidableEq, Repr

/-- Constructor `DatabaseConnection(connection_url)`: `_connected = False`, `_data = {}`. -/
def DatabaseConnection.make (connection_url : String) : DatabaseConnection :=
  { connection_url := connection_url, _connected := false, _data := [] }

/-- Method `DatabaseConnection.connect`: sets `_connected = True`, returns True. -/
def DatabaseConnection.connect (db : DatabaseConnection) :
    Bool × DatabaseConnection :=
  (true, { db with _connected := true })

/-- Method `DatabaseConnection.close`: sets `_connected = False`. -/
def DatabaseConnection.close (db : DatabaseConnection) : DatabaseConnection :=
  { db with _connected := false }

/-- Method `DatabaseConnection.execute`: raises RuntimeError when not connected,
otherwise returns the empty list (mock execution). -/
def DatabaseConnection.execute (db : DatabaseConnection) (query : String)
    (params : Option (List String)) :
    Except String (List String) × DatabaseConnection :=
  if !db._connected then (Except.error "Database not connected", db)
  else (Except.ok [], db)

/-- Method `DatabaseConnection.insert`: raises RuntimeError when not connected,
otherwise returns 1 (mock record id). -/
def DatabaseConnection.insert (db : DatabaseConnection) (table : String)
    (data : List (String × String)) : Except String Int × DatabaseConnection :=
  if !db._connected then (Except.error "Database not connected", db)
  else (Except.ok 1, db)

/-- State of `AuthService` per its `__init__` in services/auth.py: the database handle
and the `_users` and `_sessions` dictionaries. -/
structure AuthState : Type where
  database : DatabaseConnection
  _users : List (String × User)
  _sessions : List (String × String)
deriving DecidableEq, Repr

/-- Constructor `AuthService(database)`: both dictionaries start empty. -/
def AuthService.make (database : DatabaseConnection) : AuthState :=
  { database := database, _users := [], _sessions := [] }

/-- Method `AuthService.register_user`: False when the email is already registered,
otherwise stores the user under its email and returns True. -/
def register_user (s : AuthState) (user : User) : Bool × AuthState :=
  if dictContains s._users user.email then (false, s)
  else (true, { s with _users := dictSet s._users user.email user })

/-- Method `AuthService.authenticate`: None when the email is not registered;
otherwise a fresh uuid4 token (here the extra argument `uuidToken`, the value
drawn by `uuid.uuid4()`) is mapped to the email in `_sessions` and returned.
The password is never inspected. -/
def authenticate (s : AuthState) (email password uuidToken : String) :
    Option String × AuthState :=
  if !dictContains s._users email then (none, s)
  else (some uuidToken,
    { s with _sessions := dictSet s._sessions uuidToken email })

/-- Method `AuthService.validate_session`: looks the token up in `_sessions`; a
truthy (non-empty) email is then looked up in `_users`.  No state changes. -/
def validate_session (s : AuthState) (token : String) :
    Option User × AuthState :=
  match dictGet s._sessions token with
  | some email => if email = "" then (none, s) else (dictGet s._users email, s)
  | none => (none, s)

/-- Method `AuthService.logout`: deletes the token from `_sessions` when present and
returns True, otherwise returns False. -/
def logout (s : AuthState) (token : String) : Bool × AuthState :=
  if dictContains s._sessions token then
    (true, { s with _sessions := dictDel s._sessions token })
  else (false, s)

/-- One `AuthService` call, for reasoning about call sequences.  The `auth`
case carries the token value produced by `uuid.uuid4()` during that call. -/
inductive AuthOp : Type
  | register (user : User)
  | auth (email password uuidToken : String)
  | validate (token : String)
  | logoutOp (token : String)
deriving DecidableEq, Repr

/-- The state after one `AuthService` call. -/
def authStep (s : AuthState) (op : AuthOp) : AuthState :=
  match op with
  | AuthOp.register u => (register_user s u).2
  | AuthOp.auth e p tok => (authenticate s e p tok).2
  | AuthOp.validate tok => (validate_session s tok).2
  | AuthOp.logoutOp tok => (logout s tok).2

/-- The state after a sequence of `AuthService` calls. -/
def authRun (s : AuthState) (ops : List AuthOp) : AuthState :=
  ops.foldl authStep s

/-- The uuid4 contract for one call: a token generated by `authenticate` is
fresh, i.e. not already a key of `_sessions`.  Other calls draw no token. -/
def authTokenFresh (s : AuthState) (op : AuthOp) : Prop :=
  match op with
  | AuthOp.auth _ _ tok => dictGet s._sessions tok = none
  | _ => True

/-- Python `Person` dataclass from comprehensive.py. -/
structure Person : Type where
  name : String
  age : Int
  email : Option String
  tags : List String
  metadata : List (String × String)
deriving DecidableEq, Repr

/-- Constructing a `Person`: `__post_init__` raises ValueError when the age
is negative, otherwise the fields are stored as given. -/
def Person.make (name : String) (age : Int) (email : Option String)
    (tags : List String) (metadata : List (String × String)) :
    Except String Person :=
  if age < 0 then Except.error "Age cannot be negative"
  else Except.ok
    { name := name, age := age, email := email, tags := tags,
      metadata := metadata }

/-- Function `async_fetch` from comprehensive.py (the sleep has no observable
effect on the value): returns the f-string `"Data from {url}"`. -/
def async_fetch (url : String) : String := "Data from " ++ url

/-- Python `range(start, stop)` over integers, as the list it iterates. -/
def pyRange (start stop : Int) : List Int :=
  (List.range (stop - start).toNat).map (fun (i : Nat) => start + (i : Int))

/-- Function `async_counter` from comprehensive.py: yields `i` for each `i` in
`range(start, end)` (the sleep has no observable effect on the values). -/
def async_counter (start stop : Int) : List Int := pyRange start stop

/-- C1: the outcome of authenticate does not depend on the password: it is
None exactly when the email is not registered, and two runs that differ only
in the password coincide completely. -/
theorem authenticate_ignores_password (s : AuthState)
    (email p1 p2 tok : String) :
    ((authenticate s email p1 tok).1 = none ↔
      dictGet s._users email = none) ∧
    authenticate s email p1 tok = authenticate s email p2 tok := by
  refine ⟨?_, rfl⟩
  unfold authenticate dictContains
  cases h : dictGet s._users email <;> simp [h]

/-- C2: execute and insert raise RuntimeError exactly when the connection is
not connected (as after construction, or after close); the object state is
unchanged by both calls (in particular when they raise), construction and
close leave the connection disconnected, and connect makes it connected. -/
theorem db_raises_iff_disconnected (db : DatabaseConnection) (query : String)
    (params : Option (List String)) (table url : String)
    (data : List (String × String)) :
    ((db.execute query params).1 = Except.error "Database not connected" ↔
      db._connected = false) ∧
    ((db.insert table data).1 = Except.error "Database not connected" ↔
      db._connected = false) ∧
    (db.execute query params).2 = db ∧
    (db.insert table data).2 = db ∧
    (DatabaseConnection.make url)._connected = false ∧
    db.close._connected = false ∧
    db.connect.2._connected = true := by
  unfold DatabaseConnection.execute DatabaseConnection.insert
    DatabaseConnection.make DatabaseConnection.close DatabaseConnection.connect
  cases h : db._connected <;> simp [h]

/-- C3: constructing a Person raises ValueError exactly when the age is
negative; for every nonnegative age it succeeds and stores the given name,
age, email, tags and metadata unchanged. -/
theorem person_age_validation (name : String) (age : Int)
    (email : Option String) (tags : List String)
    (metadata : List (String × String)) :
    (Person.make name age email tags metadata =
        Except.error "Age cannot be negative" ↔ age < 0) ∧
    (Person.make name age email tags metadata =
        Except.ok
          { name := name, age := age, email := email, tags := tags,
            metadata := metadata } ↔ 0 ≤ age) := by
  unfold Person.make
  by_cases h : age < 0 <;> simp [h] <;> omega

/-- C4 counterexample: on a connected connection, insert returns the record
id 1, not an empty result (the empty/zero value of its integer return type):
the claim that each query operation returns an empty result is false. -/
theorem insert_returns_one_not_empty :
    (DatabaseConnection.insert
        { connection_url := "postgres://localhost", _connected := true,
          _data := [] } "users" []).1 = Except.ok 1 ∧
    (1 : Int) ≠ 0 := by
  exact ⟨rfl, by decide⟩

/-- C4 amended: on every connected connection, execute returns the empty
list and insert returns the constant record id 1, both independent of their
arguments and of the stored data. -/
theorem db_stub_results (db : DatabaseConnection) (query : String)
    (params : Option (List String)) (table : String)
    (data : List (String × String)) (h : db._connected = true) :
    (db.execute query params).1 = Except.ok [] ∧
    (db.insert table data).1 = Except.ok 1 := by
  unfold DatabaseConnection.execute DatabaseConnection.insert
  simp [h]

/-- C4 witness: the amended claim at a concrete connected connection. -/
theorem db_stub_results_witness :
    ((DatabaseConnection.make "db://x").connect.2.execute "SELECT 1"
        none).1 = Except.ok [] ∧
    ((DatabaseConnection.make "db://x").connect.2.insert "t" []).1 =
      Except.ok 1 :=
  db_stub_results (DatabaseConnection.make "db://x").connect.2 "SELECT 1"
    none "t" [] rfl

/-- Lookup after an assignment: the new key shadows, others are untouched. -/
theorem dictGet_dictSet {α : Type} (m : List (String × α)) (k t : String)
    (v : α) :
    dictGet (dictSet m k v) t = if t = k then some v else dictGet m t := rfl

/-- Lookup after a deletion: the deleted key is gone, others are untouched. -/
theorem dictGet_dictDel {α : Type} (m : List (String × α)) (k t : String) :
    dictGet (dictDel m k) t = if t = k then none else dictGet m t := by
  induction m with
  | nil => simp [dictDel, dictGet]
  | cons p rest ih =>
    obtain ⟨k2, v⟩ := p
    by_cases hk : k2 = k
    · subst hk
      by_cases ht : t = k2 <;>
        simp [dictDel, dictGet, ht, ih, dictDel] at ih ⊢ <;>
        simp [ih, ht]
    · by_cases ht : t = k2 <;>
        simp [dictDel, dictGet, hk, ht] at ih ⊢ <;>
        simp [ih]

/-- validate_session never changes the service state. -/
theorem validate_session_state (s : AuthState) (token : String) :
    (validate_session s token).2 = s := by
  unfold validate_session
  cases dictGet s._sessions token with
  | none => rfl
  | some email => by_cases h : email = "" <;> simp [h]

/-- register_user never changes the sessions dictionary. -/
theorem register_user_sessions (s : AuthState) (u : User) :
    (register_user s u).2._sessions = s._sessions := by
  unfold register_user
  by_cases h : dictContains s._users u.email <;> simp [h]

/-- C5: a token-to-email entry of the sessions dictionary survives every
call other than a logout of exactly that token (authenticate's uuid4 token
being fresh); in particular validate_session and register_user leave the
sessions dictionary unchanged. -/
theorem session_entry_stable (s : AuthState) (op : AuthOp) (t e : String)
    (hmem : dictGet s._sessions t = some e)
    (hop : op ≠ AuthOp.logoutOp t)
    (hfresh : authTokenFresh s op) :
    dictGet (authStep s op)._sessions t = some e ∧
    (∀ tok, (authStep s (AuthOp.validate tok))._sessions = s._sessions) ∧
    (∀ u, (authStep s (AuthOp.register u))._sessions = s._sessions) := by
  refine ⟨?_, fun tok => congrArg AuthState._sessions
    (validate_session_state s tok), fun u => register_user_sessions s u⟩
  cases op with
  | register u => rw [show authStep s (AuthOp.register u) = (register_user s u).2 from rfl, register_user_sessions]; exact hmem
  | auth email password tok =>
    have htne : t ≠ tok := fun h => by
      rw [h, hfresh] at hmem; exact Option.noConfusion hmem
    unfold authStep authenticate
    by_cases h : dictContains s._users email <;>
      simp [h, dictGet_dictSet, htne, hmem]
  | validate tok => rw [show authStep s (AuthOp.validate tok) = (validate_session s tok).2 from rfl, validate_session_state]; exact hmem
  | logoutOp tok =>
    have htne : t ≠ tok := fun h => hop (by rw [h])
    unfold authStep logout
    by_cases h : dictContains s._sessions tok <;>
      simp [h, dictGet_dictDel, htne, hmem]

/-- A concrete registered user for concrete evaluations. -/
def sampleUser : User :=
  { name := "A", email := "a@b", role := UserRole.user, _id := none }

/-- A concrete service state with one registered user and one session. -/
def sampleAuthState : AuthState :=
  { database := DatabaseConnection.make "db://x",
    _users := [("a@b", sampleUser)],
    _sessions := [("tok1", "a@b")] }

/-- C5 witness: a concrete state with one session entry, stepped by a
validate_session call on another token. -/
theorem session_entry_stable_witness :
    dictGet (authStep sampleAuthState
        (AuthOp.validate "tok2"))._sessions "tok1" = some "a@b" ∧
    (∀ tok, (authStep sampleAuthState
        (AuthOp.validate tok))._sessions = sampleAuthState._sessions) ∧
    (∀ u, (authStep sampleAuthState
        (AuthOp.register u))._sessions = sampleAuthState._sessions) :=
  session_entry_stable sampleAuthState (AuthOp.validate "tok2") "tok1" "a@b"
    (by decide) (by decide) trivial

/-- C6: async_fetch url is the string "Data from " followed by url, and
async_counter start stop yields exactly the integers of [start, stop) in
strictly increasing order, hence nothing when start >= stop. -/
theorem async_samples (url : String) (start stop k : Int) :
    async_fetch url = "Data from " ++ url ∧
    (k ∈ async_counter start stop ↔ start ≤ k ∧ k < stop) ∧
    List.Sorted (fun a b => a < b) (async_counter start stop) ∧
    (stop ≤ start → async_counter start stop = []) := by
  refine ⟨rfl, ?_, ?_, ?_⟩
  · unfold async_counter pyRange
    constructor
    · intro hk
      obtain ⟨i, hi, hik⟩ := List.mem_map.mp hk
      rw [List.mem_range] at hi
      have hik2 : start + (i : Int) = k := hik
      omega
    · intro hk
      refine List.mem_map.mpr ⟨(k - start).toNat, ?_, ?_⟩
      · rw [List.mem_range]; omega
      · show start + (((k - start).toNat : Nat) : Int) = k
        omega
  · unfold async_counter pyRange
    have hp : List.Pairwise (fun a b : Nat => a < b)
        (List.range ((stop - start).toNat)) := List.sorted_lt_range _
    exact List.Pairwise.map _
      (fun a b hab => show start + (a : Int) < start + (b : Int) by omega) hp
  · intro h
    unfold async_counter pyRange
    have h0 : (stop - start).toNat = 0 := by omega
    rw [h0]
    simp

/-- Every email a session maps to is a registered user's email. -/
def sessionsRegistered (s : AuthState) : Prop :=
  ∀ t e, dictGet s._sessions t = some e →
    (dictGet s._users e).isSome = true

/-- One AuthService call preserves `sessionsRegistered`. -/
theorem sessionsRegistered_step (s : AuthState) (op : AuthOp)
    (h : sessionsRegistered s) : sessionsRegistered (authStep s op) := by
  cases op with
  | register u =>
    intro t e ht
    simp only [authStep] at ht ⊢
    rw [register_user_sessions] at ht
    have he := h t e ht
    unfold register_user
    by_cases hc : dictContains s._users u.email
    · simpa [hc] using he
    · by_cases he2 : e = u.email <;> simp [hc, dictGet_dictSet, he2, he]
  | auth email password tok =>
    intro t e ht
    simp only [authStep] at ht ⊢
    unfold authenticate at ht ⊢
    by_cases hc : dictContains s._users email
    · simp only [hc, Bool.not_true, Bool.false_eq_true, if_false] at ht ⊢
      rw [dictGet_dictSet] at ht
      by_cases hte : t = tok
      · simp only [hte, if_pos rfl] at ht
        cases ht
        simpa [dictContains] using hc
      · rw [if_neg hte] at ht
        exact h t e ht
    · simp only [hc] at ht ⊢
      simpa using h t e (by simpa using ht)
  | validate tok =>
    have hs : (authStep s (AuthOp.validate tok)) = s :=
      validate_session_state s tok
    rw [hs]
    exact h
  | logoutOp tok =>
    intro t e ht
    simp only [authStep] at ht ⊢
    unfold logout at ht ⊢
    by_cases hc : dictContains s._sessions tok
    · simp only [hc, if_true] at ht ⊢
      rw [dictGet_dictDel] at ht
      by_cases hte : t = tok
      · simp [hte] at ht
      · rw [if_neg hte] at ht
        exact h t e ht
    · simp only [hc] at ht ⊢
      simpa using h t e (by simpa using ht)

/-- A sequence of AuthService calls preserves `sessionsRegistered`. -/
theorem sessionsRegistered_run (s : AuthState) (ops : List AuthOp)
    (h : sessionsRegistered s) : sessionsRegistered (authRun s ops) := by
  induction ops generalizing s with
  | nil => exact h
  | cons op rest ih => exact ih (authStep s op) (sessionsRegistered_step s op h)

/-- C7: in every state reachable from a fresh AuthService by any call
sequence, every email stored as a value of the sessions dictionary is a key
of the users dictionary. -/
theorem sessions_refer_to_registered (db : DatabaseConnection)
    (ops : List AuthOp) (t e : String)
    (h : dictGet (authRun (AuthService.make db) ops)._sessions t = some e) :
    (dictGet (authRun (AuthService.make db) ops)._users e).isSome = true :=
  sessionsRegistered_run (AuthService.make db) ops
    (fun _ _ h2 => Option.noConfusion h2) t e h

/-- C7 witness: after registering a user and authenticating, the session
token's email is registered. -/
theorem sessions_refer_to_registered_witness :
    (dictGet (authRun (AuthService.make (DatabaseConnection.make "db://x"))
        [AuthOp.register sampleUser, AuthOp.auth "a@b" "pw" "tok1"])._users
      "a@b").isSome = true :=
  sessions_refer_to_registered (DatabaseConnection.make "db://x")
    [AuthOp.register sampleUser, AuthOp.auth "a@b" "pw" "tok1"] "tok1" "a@b"
    (by decide)

/-- C8: register_user on an already-registered email returns False and
changes nothing; on a new email it returns True, leaves the sessions
dictionary and database untouched, and the users dictionary afterwards maps
the new email to the given user and every other email as before. -/
theorem register_user_semantics (s : AuthState) (u : User) :
    (dictContains s._users u.email = true →
      register_user s u = (false, s)) ∧
    (dictContains s._users u.email = false →
      (register_user s u).1 = true ∧
      (register_user s u).2._sessions = s._sessions ∧
      (register_user s u).2.database = s.database ∧
      ∀ e, dictGet (register_user s u).2._users e =
        if e = u.email then some u else dictGet s._users e) := by
  constructor
  · intro h; unfold register_user; simp [h]
  · intro h
    unfold register_user
    simp [h, dictGet_dictSet]

end Codanna
